import Mathlib

/-!
# SavingThrow — verification of the adware detection and remediation engine

Shallow embedding of `SavingThrow.py` (a Python 2 script).  Paths and file
contents are modelled as `List Char`; the filesystem, the network and the
clock are explicit environment records.  Fallible operations return
`Except`/error-carrying results mirroring which exceptions each handler in
the source catches.
-/

namespace SavingThrow

/-- A filesystem path or file content, as a sequence of characters. -/
abbrev Path := List Char

/-- `CACHE = '/Library/Application Support/SavingThrow'` (module constant). -/
def CACHE : Path := "/Library/Application Support/SavingThrow".data

/-- Boolean list-prefix test (used to model chunks of Python string/regex
matching over `List Char`). -/
def isPre : List Char → List Char → Bool
  | [], _ => true
  | _ :: _, [] => false
  | a :: as, b :: bs => a == b && isPre as bs

/-- Boolean contiguous-substring test: `containsSeg n h` holds iff `n`
occurs contiguously inside `h`. -/
def containsSeg (needle : List Char) : List Char → Bool
  | [] => isPre needle []
  | c :: rest => isPre needle (c :: rest) || containsSeg needle rest

/-- Split a character sequence at newline characters, Python
`str.split('\n')` style: always at least one (possibly empty) piece, a
trailing newline yields a trailing empty piece. -/
def splitNL : List Char → List (List Char)
  | [] => [[]]
  | c :: rest =>
    match splitNL rest with
    | [] => [[]]
    | l :: ls => if c = '\n' then [] :: l :: ls else (c :: l) :: ls

/-! ## The Heuristic Detector's regular expression

`agent_regex = re.compile('.*/Library/Application Support/(.*)/Agent/agent.app/Contents/MacOS/agent')`

Every token of the pattern matches only non-newline characters, so any
match lies within a single line; `re.search` returns the leftmost match
(the first line containing one), the leading greedy `.*` places the
literal `/Library/Application Support/` at the rightmost feasible
position of that line, and the greedy capture `(.*)` then extends to the
rightmost occurrence of the trailer `/Agent/agent.app/Contents/MacOS/agent`
(whose unescaped `.` is a single-character wildcard).
-/

/-- The literal head `/Library/Application Support/` of the regex
(29 characters). -/
def strA : Path := "/Library/Application Support/".data

/-- The trailer `/Agent/agent` before the wildcard `.` of `agent.app`. -/
def strB1 : Path := "/Agent/agent".data

/-- The trailer `app/Contents/MacOS/agent` after the wildcard `.`. -/
def strB2 : Path := "app/Contents/MacOS/agent".data

/-- Does the 37-character trailer `/Agent/agent.app/Contents/MacOS/agent`
(with `.` a one-character wildcard) match at the head of `s`?  Inside a
single line no character is a newline, so the wildcard accepts any
character. -/
def bMatchAt (s : List Char) : Bool :=
  isPre strB1 s && decide (13 ≤ s.length) && isPre strB2 (s.drop 13)

/-- The capture of the leftmost-then-greedy match of the agent regex
within one line, if any: the head literal is placed at the largest
feasible offset `q`, the capture ends at the largest trailer offset
`r ≥ q + 29`. -/
def lineCapture (l : List Char) : Option (List Char) :=
  let n := l.length
  let bps := (List.range (n + 1)).filter (fun r => bMatchAt (l.drop r))
  let qs := (List.range (n + 1)).filter
    (fun q => isPre strA (l.drop q) && bps.any (fun r => decide (q + 29 ≤ r)))
  match qs.getLast? with
  | none => none
  | some q =>
    match (bps.filter (fun r => decide (q + 29 ≤ r))).getLast? with
    | none => none
    | some r => some ((l.drop (q + 29)).take (r - (q + 29)))

/-- `re.search(agent_regex, content)`: the capture group of the match on
the first line that has one. -/
def searchAgent (content : List Char) : Option (List Char) :=
  (splitNL content).findSome? lineCapture

/-- `'/Library/Application Support/%s' % obfuscated_name`. -/
def supportDir (g : List Char) : Path := strA ++ g

/-! ## Heuristic Detector (`get_projectX_files`) -/

/-- The three fixed glob templates scanned by the Heuristic Detector. -/
def projectx_files : List Path :=
  ["/Library/LaunchAgents/com.*.agent.plist".data,
   "/Library/LaunchDaemons/com.*.helper.plist".data,
   "/Library/LaunchDaemons/com.*.daemon.plist".data]

/-- Environment of the Heuristic Detector: the concrete candidate files
produced by globbing `projectx_files`, and the result of `open(...).read()`
on each (`none` models an `IOError`: unreadable file, broken symlink). -/
structure DetectEnv where
  candidates : List Path
  read : Path → Option (List Char)

/-- Body of `get_projectX_files`' loop over the remaining candidates.  The
`open`/`read` has no surrounding `try`, so a failed read propagates
(`Except.error ()`); on a regex match both the candidate and the derived
`/Library/Application Support/<capture>` directory are added. -/
def detectAux (env : DetectEnv) : List Path → Except Unit (Finset Path)
  | [] => .ok ∅
  | c :: rest =>
    match env.read c with
    | none => .error ()
    | some content =>
      match detectAux env rest with
      | .error e => .error e
      | .ok s =>
        match searchAgent content with
        | none => .ok s
        | some g => .ok (insert c (insert (supportDir g) s))

/-- `get_projectX_files()`: scan all glob candidates, returning the set of
detected configuration files and derived install directories, or the
propagated read error. -/
def get_projectX_files (env : DetectEnv) : Except Unit (Finset Path) :=
  detectAux env env.candidates

/-! ## List Fetcher (`load_adware_description_files`)

Contents and patterns here are `String`; each source's network fetch,
cache write and cache read are environment functions.  The control flow of
the source is: `urlopen(source).read()` (failure = `urllib2.URLError`),
then the cache write whose `IOError` with `errno == 13` calls
`sys.exit(13)` and whose other `IOError` is re-raised (the outer `except`
catches only `URLError`, so it escapes); on `URLError`, fall back to the
cache read, whose `IOError` is merely logged.  The update
`known_adware.update({f for f in adware_list.split('\n')})` then runs
unconditionally on the local `adware_list`, which at that point is the
fresh body, the cached body, a stale body from an earlier source, or
unbound (a `NameError`). -/

/-- Result of the cache write `open(..., 'w').write(...)`. -/
inductive WriteRes
  | ok
  | permDenied
  | otherIOErr
deriving DecidableEq

/-- Environment of one Fetcher run: per-source network body (`none` =
`urllib2.URLError`), cache-write result, and cached body (`none` =
`IOError`, no cached copy). -/
structure FetchEnv where
  urlopen : String → Option String
  cacheWrite : String → WriteRes
  cacheRead : String → Option String

/-- How `load_adware_description_files` terminates abnormally:
`sys.exit(13)`, a re-raised cache-write `IOError`, or the `NameError` from
reading the unbound `adware_list`. -/
inductive LoadErr
  | exit13
  | ioErr
  | nameErr
deriving DecidableEq

/-- Python `s.split('\n')` over a `String`. -/
def pySplitNL (s : String) : List String := (splitNL s.data).map String.mk

/-- `{file for file in adware_list.split('\n')}` — every piece, empty
pieces included. -/
def splitSet (s : String) : Finset String := (pySplitNL s).toFinset

/-- One iteration of the Fetcher's `for source in sources` loop.  The
state is the Python local `adware_list` (`none` = still unbound) together
with the accumulated `known_adware` set. -/
def loadStep (env : FetchEnv) (st : Option String × Finset String)
    (source : String) : Except LoadErr (Option String × Finset String) :=
  match env.urlopen source, st with
  | some content, (_, acc) =>
    match env.cacheWrite source with
    | .ok => .ok (some content, acc ∪ splitSet content)
    | .permDenied => .error .exit13
    | .otherIOErr => .error .ioErr
  | none, (al, acc) =>
    match env.cacheRead source, al with
    | some cached, _ => .ok (some cached, acc ∪ splitSet cached)
    | none, some stale => .ok (some stale, acc ∪ splitSet stale)
    | none, none => .error .nameErr

/-- The Fetcher's loop over the remaining sources. -/
def loadAux (env : FetchEnv) : List String → (Option String × Finset String) →
    Except LoadErr (Option String × Finset String)
  | [], st => .ok st
  | s :: rest, st =>
    match loadStep env st s with
    | .error e => .error e
    | .ok st' => loadAux env rest st'

/-- `load_adware_description_files(sources)`: accumulate the parsed
patterns of every source, or terminate abnormally. -/
def load_adware_description_files (env : FetchEnv) (sources : List String) :
    Except LoadErr (Finset String) :=
  match loadAux env sources (none, ∅) with
  | .error e => .error e
  | .ok (_, acc) => .ok acc

/-! ## Matcher (`main`, line 264)

`found_adware = {match for filename in known_adware for match in glob.glob(filename)}` -/

/-- Glob expansion of a pattern set against the live filesystem, where
`g` is `glob.glob`: the union of every pattern's expansion, with set
semantics. -/
def expand (g : String → List String) (patterns : Finset String) : Finset String :=
  patterns.biUnion (fun p => (g p).toFinset)

/-! ## Remediator (`remove` and `quarantine`) -/

/-- Per-entry remediation outcome ("Removed"/"Failed to remove"/
"Quarantined"/"Failed to quarantine" log lines). -/
inductive Outcome
  | removed
  | removeFailed
  | quarantined
  | quarantineFailed
deriving DecidableEq

/-- Environment of one `remove` run: the `os.path.isdir`/`os.path.isfile`
answers and whether the `shutil.rmtree`/`os.remove` call succeeds (`false`
= it raises `OSError`, the class the handler catches). -/
structure REnv where
  isdir : Path → Bool
  isfile : Path → Bool
  rmtreeOk : Path → Bool
  removeOk : Path → Bool

/-- Body of `remove`'s loop for one item.  When the path is neither a
directory nor a regular file, neither deletion branch runs and the
`logger.log("Removed adware file: ...")` line still executes: the entry
is reported as removed. -/
def remove_one (env : REnv) (item : Path) : Outcome :=
  if env.isdir item then
    (if env.rmtreeOk item then .removed else .removeFailed)
  else if env.isfile item then
    (if env.removeOk item then .removed else .removeFailed)
  else .removed

/-- `remove(files)`: per-entry outcomes in iteration order; every
exception the loop body can raise is an `OSError`, which the handler
catches, so the loop always reaches every entry. -/
def remove (env : REnv) (files : List Path) : List (Path × Outcome) :=
  files.map (fun i => (i, remove_one env i))

/-! ### Quarantine -/

/-- The `time.localtime()` instant read by `time.strftime`. -/
structure Tm where
  year : Nat
  month : Nat
  day : Nat
  hour : Nat
  minute : Nat
  second : Nat

/-- Left-pad a digit string with `'0'` to width `k`. -/
def padZ (k : Nat) (l : List Char) : List Char :=
  List.replicate (k - l.length) '0' ++ l

/-- `time.strftime("%Y%m%d-%H%M%S")` on a given local-time instant. -/
def strf (t : Tm) : Path :=
  padZ 4 (Nat.toDigits 10 t.year) ++ padZ 2 (Nat.toDigits 10 t.month) ++
  padZ 2 (Nat.toDigits 10 t.day) ++ '-' ::
  (padZ 2 (Nat.toDigits 10 t.hour) ++ padZ 2 (Nat.toDigits 10 t.minute) ++
   padZ 2 (Nat.toDigits 10 t.second))

/-- `os.path.basename`: the part after the last `'/'`. -/
def basename (p : Path) : Path := (p.reverse.takeWhile (fun c => c != '/')).reverse

/-- How a `shutil.move` call can fail, split by exception class because
`quarantine`'s handler catches only `OSError`:
* `shutilError` — Python 2.7 `shutil.move` raises `shutil.Error` (a direct
  `EnvironmentError` subclass, *not* an `OSError`) when the destination
  directory already holds an entry of the same base name, when a directory
  source contains the destination (`_destinsrc`, reached after `os.rename`
  fails with `EINVAL`), or out of a failed `copytree` fallback;
* `ioError` — on a missing source, `os.rename` raises `OSError`, which
  `shutil.move` itself catches and retries as `copy2`, whose `open` then
  raises `IOError` (in Python 2 a sibling of `OSError`, not a subclass);
  the `copy2` fallback after any failed rename can likewise raise
  `IOError`;
* `osError` — the remaining OS-level failures (e.g. permission denied),
  which do surface as `OSError`;
* `mkdirError` — the `OSError` of `os.mkdir` on an existing directory. -/
inductive MvErr
  | shutilError
  | ioError
  | osError
  | mkdirError
deriving DecidableEq

/-- Environmental outcome of the OS-level relocation of one existing,
non-ancestor source by `shutil.move`:
* `moved` — `os.rename` succeeds, or it fails (e.g. `EXDEV`) and the
  `copytree`+`rmtree`/`copy2`+`unlink` fallback completes;
* `osError` — the attempt fails with an `OSError` (the class `quarantine`
  catches): a failed rename with a failing fallback `rmtree`/`unlink`/
  `copystat`, permission denied, and so on;
* `ioError` — the `copy2` fallback raises `IOError` (uncaught in
  Python 2);
* `shutilError` — the `copytree` fallback raises `shutil.Error`
  (uncaught). -/
inductive MoveFate
  | moved
  | osError
  | ioError
  | shutilError
deriving DecidableEq

/-- Environment of one `quarantine` run: the current local time and, for
each source path, the environmental outcome of its OS-level relocation. -/
structure QEnv where
  t : Tm
  fate : Path → MoveFate

/-- `backup_dir = os.path.join(CACHE, time.strftime("%Y%m%d-%H%M%S"))`. -/
def backupDir (env : QEnv) : Path := CACHE ++ '/' :: strf env.t

/-- `shutil.move(src, dstDir)` (Python 2.7) with `dstDir` an existing
directory, over a filesystem modelled as the set of existing paths.  The
real destination is `dstDir/basename(src)`; an existing destination
raises `shutil.Error`; a missing source falls out of `os.rename`'s
`OSError` handler into `copy2`, whose `open` raises `IOError`; a source
that is the destination directory itself or a path-ancestor of it (such a
source is necessarily a directory, since the destination directory exists
inside it) makes `os.rename` fail deterministically with `EINVAL` and
`_destinsrc` then raises `shutil.Error`; otherwise the outcome is the
environment's `MoveFate` for the source.  A failed attempt is modelled as
leaving the filesystem unchanged; a half-completed fallback can in
reality leave a partial copy at the destination (or, after `copytree`
succeeds but `rmtree` fails, a leftover source), paths no other entry's
checks consult when base names are pairwise distinct. -/
def shutil_move (fate : Path → MoveFate) (fs : Finset Path) (src dstDir : Path) :
    Except MvErr (Finset Path) :=
  let realDst := dstDir ++ '/' :: basename src
  if realDst ∈ fs then .error .shutilError
  else if src ∉ fs then .error .ioError
  else if src = dstDir ∨ isPre (src ++ ['/']) dstDir = true then .error .shutilError
  else
    match fate src with
    | .moved => .ok (insert realDst (fs.erase src))
    | .osError => .error .osError
    | .ioError => .error .ioError
    | .shutilError => .error .shutilError

/-- `quarantine`'s loop over the remaining items: `OSError` is caught and
logged (`quarantineFailed`), every other exception aborts the batch with
the filesystem as it stands. -/
def quarantineAux (fate : Path → MoveFate) (dir : Path) :
    List Path → Finset Path → Finset Path × List (Path × Outcome) × Option MvErr
  | [], fs => (fs, [], none)
  | i :: rest, fs =>
    match shutil_move fate fs i dir with
    | .ok fs' =>
      let r := quarantineAux fate dir rest fs'
      (r.1, (i, .quarantined) :: r.2.1, r.2.2)
    | .error .osError =>
      let r := quarantineAux fate dir rest fs
      (r.1, (i, .quarantineFailed) :: r.2.1, r.2.2)
    | .error e => (fs, [], some e)

/-- Result of a `quarantine` call: the filesystem afterwards, the
per-entry outcomes reached, the backup directory if it was created, and
the uncaught exception if one escaped. -/
structure QResult where
  fs : Finset Path
  outcomes : List (Path × Outcome)
  created : Option Path
  err : Option MvErr
deriving DecidableEq

/-- `quarantine(files)` over a filesystem `fs` (the set of existing
paths), with `files` the iteration order of the matched set.  On a
non-empty set, `os.mkdir(backup_dir)` runs outside any `try`: if the
timestamped directory already exists the `OSError` escapes at once. -/
def quarantine (env : QEnv) (fs : Finset Path) (files : List Path) : QResult :=
  if files.isEmpty then ⟨fs, [], none, none⟩
  else
    let dir := backupDir env
    if dir ∈ fs then ⟨fs, [], none, some .mkdirError⟩
    else
      let r := quarantineAux env.fate dir files (insert dir fs)
      ⟨r.1, r.2.1, some dir, r.2.2⟩

/-! ## Reporter (`extension_attribute`) -/

/-- The enumerated listing `"%d: %s\n" % item` for `item` in
`enumerate(files)`, starting at index `i`. -/
def enumLines (i : Nat) : List String → String
  | [] => ""
  | f :: rest => toString i ++ ": " ++ f ++ "\n" ++ enumLines (i + 1) rest

/-- `extension_attribute(files)`: the exact string assembled and emitted
for the management tool. -/
def extension_attribute (files : List String) : String :=
  "<result>" ++
    (if files.isEmpty then "False" else "True\n" ++ enumLines 0 files) ++
  "</result>"

/-! ## Concrete instances

Closed inputs used to evaluate the embedded functions at specific
filesystem/network situations. -/

/-- Did an `Except` computation return normally? -/
def exOk {ε α : Type} : Except ε α → Bool
  | .ok _ => true
  | .error _ => false

/-- The value of an `Except` computation, with a default for the error
case. -/
def exGet {ε α : Type} (d : α) : Except ε α → α
  | .ok a => a
  | .error _ => d

/-- The infection signature string from the spec's test property:
`/Library/Application Support/com.foobar123.mac/Agent/agent.app/Contents/MacOS/agent`. -/
def strX : Path :=
  "/Library/Application Support/com.foobar123.mac/Agent/agent.app/Contents/MacOS/agent".data

/-- The randomized install name captured from `strX`. -/
def gX : List Char := "com.foobar123.mac".data

/-- The derived install directory the claim requires. -/
def dirX : Path := "/Library/Application Support/com.foobar123.mac".data

/-- A line whose match captures `evil` instead. -/
def evilLine : Path :=
  "/Library/Application Support/evil/Agent/agent.app/Contents/MacOS/agent".data

/-- Candidate content that *contains* `strX` verbatim (on its second
line) yet whose leftmost regex match is on the first line. -/
def contentBad : Path := evilLine ++ '\n' :: strX

/-- A concrete glob candidate under `/Library/LaunchAgents`. -/
def cand1 : Path := "/Library/LaunchAgents/com.fake123.agent.plist".data

/-- Detector environment: one candidate whose content is exactly `strX`. -/
def envC1w : DetectEnv := ⟨[cand1], fun _ => some strX⟩

/-- Detector environment: one candidate with content `contentBad`. -/
def envC1c : DetectEnv := ⟨[cand1], fun _ => some contentBad⟩

/-- The detector's result set on `envC1c`. -/
def SC1bad : Finset Path := exGet ∅ (get_projectX_files envC1c)

/-- The detector's result set on `envC1w`. -/
def SC1w : Finset Path := insert cand1 (insert (supportDir gX) ∅)

/-- Detector environment: one candidate that cannot be read. -/
def envC3 : DetectEnv := ⟨[cand1], fun _ => none⟩

/-- Fetcher environment: network down, no cached copies. -/
def envC2 : FetchEnv := ⟨fun _ => none, fun _ => .ok, fun _ => none⟩

/-- Fetcher environment: fetch succeeds, cache directory not writable. -/
def envC7 : FetchEnv := ⟨fun _ => some "patterns", fun _ => .permDenied, fun _ => none⟩

/-- Fetcher environment: fetch returns a body with a trailing newline. -/
def envC9 : FetchEnv := ⟨fun _ => some "a\n", fun _ => .ok, fun _ => none⟩

/-- The pattern set accumulated from `envC9`'s single source. -/
def SC9 : Finset String := exGet ∅ (load_adware_description_files envC9 ["u"])

/-- Remove environment: the path is neither a directory nor a regular
file (it does not exist). -/
def envC5 : REnv := ⟨fun _ => false, fun _ => false, fun _ => true, fun _ => true⟩

/-- A path that does not exist. -/
def pMissing : Path := "/gone/file".data

/-- A fixed local-time instant. -/
def tmC : Tm := ⟨2015, 6, 1, 12, 30, 45⟩

/-- Quarantine environment: fixed clock, every OS-level relocation
succeeds. -/
def envQ4 : QEnv := ⟨tmC, fun _ => .moved⟩

/-- Two distinct existing paths sharing the base name `x`. -/
def pax : Path := "/a/x".data

/-- Second path with base name `x`. -/
def pbx : Path := "/b/x".data

/-- A path with base name `y`. -/
def pby : Path := "/b/y".data

/-- Filesystem for the quarantine counterexample. -/
def fsC4c : Finset Path := {pax, pbx}

/-- The quarantine run on two same-base-name entries. -/
def RC4 : QResult := quarantine envQ4 fsC4c [pax, pbx]

/-- Filesystem for the quarantine witness (distinct base names). -/
def fsC4w : Finset Path := {pax, pby}

/-- Filesystem in which the timestamped backup directory already exists. -/
def fsC10 : Finset Path := {backupDir envQ4}

/-! ## Helper lemmas -/

/-- A list is a `isPre`-prefix of itself followed by anything. -/
theorem isPre_append : ∀ (a t : List Char), isPre a (a ++ t) = true
  | [], _ => rfl
  | c :: cs, t => by simp [isPre, isPre_append cs t]

/-- Appending a nonempty tail changes a list. -/
theorem ne_append_cons (a : List Char) (c : Char) (t : List Char) :
    a ≠ a ++ c :: t := by
  intro h
  have := congrArg List.length h
  simp at this

/-- The destination paths `dir/basename f` determine the base name. -/
theorem dest_inj (dir : Path) {a b : List Char}
    (h : dir ++ '/' :: a = dir ++ '/' :: b) : a = b := by
  have h2 := List.append_cancel_left h
  injection h2

/-! ## C6 — Reporter -/

/-- C6: `extension_attribute` produces exactly `<result>False</result>`
on an empty match set; on a non-empty set it produces `<result>`, the
token `True`, a newline, one newline-terminated line `i: path` per entry
with indices from 0 in iteration order, then `</result>`; byte-for-byte,
two matches `/a` and `/b` give `<result>True\n0: /a\n1: /b\n</result>`. -/
theorem C6_extension_attribute_format :
    extension_attribute [] = "<result>False</result>" ∧
    extension_attribute ["/a", "/b"] = "<result>True\n0: /a\n1: /b\n</result>" ∧
    ∀ fs : List String, fs ≠ [] →
      extension_attribute fs =
        "<result>" ++ ("True\n" ++ enumLines 0 fs) ++ "</result>" := by
  refine ⟨rfl, by decide, ?_⟩
  intro fs h
  cases fs with
  | nil => exact absurd rfl h
  | cons a l => rfl

/-- Witness for C6 at the one-element set `["/x"]`. -/
theorem C6_witness :
    extension_attribute ["/x"] =
      "<result>" ++ ("True\n" ++ enumLines 0 ["/x"]) ++ "</result>" :=
  C6_extension_attribute_format.2.2 ["/x"] (by simp)

/-! ## C8 — Matcher -/

/-- C8: glob expansion is a homomorphism from pattern-set union to
match-set union, and maps the empty pattern set to the empty match set;
a file matched by two patterns appears once (set semantics of `expand`). -/
theorem C8_expand_union_hom (g : String → List String) (P1 P2 : Finset String) :
    expand g (P1 ∪ P2) = expand g P1 ∪ expand g P2 ∧
    expand g (∅ : Finset String) = ∅ := by
  constructor
  · ext x
    simp only [expand, Finset.mem_biUnion, Finset.mem_union, List.mem_toFinset]
    constructor
    · rintro ⟨p, hp | hp, hx⟩
      · exact Or.inl ⟨p, hp, hx⟩
      · exact Or.inr ⟨p, hp, hx⟩
    · rintro (⟨p, hp, hx⟩ | ⟨p, hp, hx⟩)
      · exact ⟨p, Or.inl hp, hx⟩
      · exact ⟨p, Or.inr hp, hx⟩
  · simp [expand]

/-! ## C5 — remove -/

/-- C5 counterexample: `remove` on a path that exists neither as a
directory nor as a file reports outcome `removed` (the success log line
runs), not `remove-failed` as claimed. -/
theorem C5_counterexample :
    remove envC5 [pMissing] = [(pMissing, Outcome.removed)] ∧
    Outcome.removed ≠ Outcome.removeFailed := ⟨rfl, by decide⟩

/-- C5 (amended): `remove` reaches every entry — processing an entry
always continues into the rest of the batch — and an entry's outcome is
`remove-failed` exactly when its `shutil.rmtree`/`os.remove` call raises
`OSError`; a missing path (neither branch applies) is reported as
`removed`, not `remove-failed`. -/
theorem C5_remove_batch (env : REnv) (i : Path) (rest : List Path) :
    remove env (i :: rest) = (i, remove_one env i) :: remove env rest ∧
    (remove_one env i = Outcome.removeFailed ↔
      (env.isdir i = true ∧ env.rmtreeOk i = false) ∨
      (env.isdir i = false ∧ env.isfile i = true ∧ env.removeOk i = false)) := by
  refine ⟨rfl, ?_⟩
  unfold remove_one
  cases h1 : env.isdir i <;> cases h2 : env.isfile i <;>
    cases h3 : env.rmtreeOk i <;> cases h4 : env.removeOk i <;> simp

/-! ## C2 — Fetcher unreachable source -/

/-- C2: evaluating the Fetcher on a single source whose network fetch
fails and which has no cached copy: the run does not contribute an empty
set and continue — it terminates with the `NameError` from reading the
unbound local `adware_list`. -/
theorem C2_nameerror_eval :
    load_adware_description_files envC2 ["u"] = .error .nameErr := rfl

/-! ## C9 — parse discards nothing -/

/-- C9 counterexample: a fetched body `"a\n"` contributes the empty
string to the returned pattern set — empty lines are not discarded. -/
theorem C9_counterexample :
    exOk (load_adware_description_files envC9 ["u"]) = true ∧
    ("" : String) ∈ SC9 ∧ SC9 = {"a", ""} := by
  refine ⟨rfl, by decide, by decide⟩

/-- C9 (amended): a successfully fetched (and cached) body is split on
newlines and *every* piece is added, empty pieces included, so a body
with a trailing newline puts the empty string in the pattern set. -/
theorem C9_split_keeps_empties (env : FetchEnv) (al : Option String)
    (acc : Finset String) (s c : String)
    (h1 : env.urlopen s = some c) (h2 : env.cacheWrite s = .ok) :
    loadStep env (al, acc) s = .ok (some c, acc ∪ splitSet c) ∧
    splitSet "a\n" = {"a", ""} := by
  refine ⟨?_, by decide⟩
  simp [loadStep, h1, h2]

/-- Witness for C9 (amended) at `envC9`. -/
theorem C9_witness :
    loadStep envC9 (none, ∅) "u" = .ok (some "a\n", ∅ ∪ splitSet "a\n") :=
  (C9_split_keeps_empties envC9 none ∅ "u" "a\n" rfl rfl).1

/-! ## C3 — Detector read failures -/

/-- The detector's scan fails exactly when some candidate is unreadable. -/
theorem detectAux_error_iff (env : DetectEnv) (l : List Path) :
    detectAux env l = .error () ↔ ∃ c, c ∈ l ∧ env.read c = none := by
  induction l with
  | nil => simp [detectAux]
  | cons c rest ih =>
    constructor
    · intro h
      cases hc : env.read c with
      | none => exact ⟨c, List.mem_cons_self .., hc⟩
      | some content =>
        simp only [detectAux, hc] at h
        cases h2 : detectAux env rest with
        | error e =>
          obtain ⟨c', hc', hr⟩ := ih.mp (by cases e; exact h2)
          exact ⟨c', List.mem_cons_of_mem _ hc', hr⟩
        | ok s =>
          simp only [h2] at h
          cases h3 : searchAgent content <;> simp only [h3] at h <;>
            exact absurd h (by simp)
    · rintro ⟨c', hc', hr⟩
      rcases List.mem_cons.mp hc' with rfl | hmem
      · simp [detectAux, hr]
      · cases hc : env.read c with
        | none => simp [detectAux, hc]
        | some content =>
          have hrec : detectAux env rest = .error () := ih.mpr ⟨c', hmem, hr⟩
          simp [detectAux, hc, hrec]

/-- C3 counterexample: a single glob candidate whose read fails — the
claim says the scan returns normally with that candidate contributing
nothing, but `get_projectX_files` propagates the error. -/
theorem C3_counterexample : get_projectX_files envC3 = .error () := rfl

/-- C3 (amended): a failure to read a candidate is *not* absorbed: the
`IOError` propagates out of `get_projectX_files`, aborting the scan —
the detector returns normally iff every enumerated candidate is
readable. -/
theorem C3_read_failure_propagates (env : DetectEnv) :
    get_projectX_files env = .error () ↔
      ∃ c, c ∈ env.candidates ∧ env.read c = none :=
  detectAux_error_iff env env.candidates

/-! ## C1 — Detector match pair -/

/-- Whenever the detector completes and a candidate's content has a regex
match with capture `g`, both the candidate and the derived directory are
in the result. -/
theorem detectAux_mem (env : DetectEnv) (l : List Path) :
    ∀ s : Finset Path, detectAux env l = .ok s →
      ∀ c, c ∈ l → ∀ content g, env.read c = some content →
        searchAgent content = some g → c ∈ s ∧ supportDir g ∈ s := by
  induction l with
  | nil =>
    intro s h c hc
    exact absurd hc (List.not_mem_nil c)
  | cons c0 rest ih =>
    intro s h c hc content g hread hsearch
    cases h0 : env.read c0 with
    | none =>
      simp only [detectAux, h0] at h
      exact absurd h (by simp)
    | some content0 =>
      simp only [detectAux, h0] at h
      cases h1 : detectAux env rest with
      | error e =>
        simp only [h1] at h
        exact absurd h (by simp)
      | ok s0 =>
        simp only [h1] at h
        rcases List.mem_cons.mp hc with rfl | hmem
        · rw [hread] at h0
          injection h0 with h0
          subst h0
          simp only [hsearch] at h
          injection h with h
          subst h
          exact ⟨Finset.mem_insert_self ..,
            Finset.mem_insert_of_mem (Finset.mem_insert_self ..)⟩
        · have hm := ih s0 h1 c hmem content g hread hsearch
          cases h2 : searchAgent content0 <;> simp only [h2] at h <;>
            injection h with h <;> subst h
          · exact hm
          · exact ⟨Finset.mem_insert_of_mem (Finset.mem_insert_of_mem hm.1),
              Finset.mem_insert_of_mem (Finset.mem_insert_of_mem hm.2)⟩

/-- C1 (amended): whenever `get_projectX_files` completes, a candidate
whose content's leftmost-then-greedy regex match captures `g` contributes
both its own path and `/Library/Application Support/<g>`; in particular a
content that is exactly the signature string captures
`com.foobar123.mac`, deriving exactly the claimed directory.  (Content
that merely *contains* the signature string can capture differently: see
the counterexample.) -/
theorem C1_detector_match_pair :
    (∀ (env : DetectEnv) (s : Finset Path) (c content : Path) (g : List Char),
       get_projectX_files env = .ok s → c ∈ env.candidates →
       env.read c = some content → searchAgent content = some g →
       c ∈ s ∧ supportDir g ∈ s) ∧
    searchAgent strX = some gX ∧ supportDir gX = dirX := by
  refine ⟨?_, by decide, by decide⟩
  intro env s c content g h hc hr hs
  exact detectAux_mem env env.candidates s h c hc content g hr hs

/-- Witness for C1 (amended): one candidate whose content is exactly the
signature string — both the candidate and the derived directory are
returned. -/
theorem C1_witness : cand1 ∈ SC1w ∧ supportDir gX ∈ SC1w :=
  C1_detector_match_pair.1 envC1w SC1w cand1 strX gX rfl (by decide) rfl
    (by decide)

/-- C1 counterexample: a candidate whose content *contains* the exact
signature string (second line) but whose leftmost match is an earlier
line capturing `evil`: the detector completes, yet the claimed directory
`/Library/Application Support/com.foobar123.mac` is absent from the
result. -/
theorem C1_counterexample :
    containsSeg strX contentBad = true ∧
    exOk (get_projectX_files envC1c) = true ∧
    dirX ∉ SC1bad ∧
    SC1bad = insert cand1 (insert (supportDir "evil".data) ∅) :=
  ⟨by decide, rfl, by decide, by decide⟩

/-! ## C7 — fatal cache-write permission failure -/

/-- One Fetcher iteration exits with code 13 exactly when the fetch
succeeded and the cache write was denied. -/
theorem loadStep_exit13_iff (env : FetchEnv) (s : String)
    (st : Option String × Finset String) :
    loadStep env st s = .error .exit13 ↔
      (env.urlopen s).isSome = true ∧ env.cacheWrite s = .permDenied := by
  rcases st with ⟨al, acc⟩
  cases h1 : env.urlopen s with
  | some content => cases h2 : env.cacheWrite s <;> simp [loadStep, h1, h2]
  | none =>
    cases h3 : env.cacheRead s with
    | some cached => simp [loadStep, h1, h3]
    | none => cases al <;> simp [loadStep, h1, h3]

/-- Splitting the Fetcher's loop at a source boundary. -/
theorem loadAux_append (env : FetchEnv) (l1 l2 : List String)
    (st : Option String × Finset String) :
    loadAux env (l1 ++ l2) st =
      match loadAux env l1 st with
      | .error e => .error e
      | .ok st' => loadAux env l2 st' := by
  induction l1 generalizing st with
  | nil => rfl
  | cons s rest ih =>
    simp only [List.cons_append, loadAux]
    cases loadStep env st s with
    | error e => rfl
    | ok st' => exact ih st'

/-- If the loop exits with code 13, some source had a successful fetch
and a permission-denied cache write. -/
theorem loadAux_exit13_source (env : FetchEnv) (sources : List String) :
    ∀ st, loadAux env sources st = .error .exit13 →
      ∃ s, s ∈ sources ∧ (env.urlopen s).isSome = true ∧
        env.cacheWrite s = .permDenied := by
  induction sources with
  | nil => intro st h; exact absurd h (by simp [loadAux])
  | cons s rest ih =>
    intro st h
    simp only [loadAux] at h
    cases h0 : loadStep env st s with
    | error e =>
      rw [h0] at h
      injection h with h
      subst h
      exact ⟨s, List.mem_cons_self .., (loadStep_exit13_iff env s st).mp h0⟩
    | ok st' =>
      rw [h0] at h
      obtain ⟨s', hs', hp⟩ := ih st' h
      exact ⟨s', List.mem_cons_of_mem _ hs', hp⟩

/-- C7: a permission-denied cache write during a fetch attempt — and only
that error class — makes the Fetcher exit with the distinct code 13, and
it does so immediately, without processing the remaining sources. -/
theorem C7_fatal_permission_exit (env : FetchEnv) :
    (∀ (s : String) (st : Option String × Finset String),
       loadStep env st s = .error .exit13 ↔
         (env.urlopen s).isSome = true ∧ env.cacheWrite s = .permDenied) ∧
    (∀ (l1 : List String) (s : String) (l2 : List String)
       (st' : Option String × Finset String),
       loadAux env l1 (none, ∅) = .ok st' →
       (env.urlopen s).isSome = true → env.cacheWrite s = .permDenied →
       load_adware_description_files env (l1 ++ s :: l2) = .error .exit13) ∧
    (∀ sources : List String,
       load_adware_description_files env sources = .error .exit13 →
       ∃ s, s ∈ sources ∧ (env.urlopen s).isSome = true ∧
         env.cacheWrite s = .permDenied) := by
  refine ⟨loadStep_exit13_iff env, ?_, ?_⟩
  · intro l1 s l2 st' h1 h2 h3
    unfold load_adware_description_files
    rw [loadAux_append, h1]
    have hs : loadStep env st' s = .error .exit13 :=
      (loadStep_exit13_iff env s st').mpr ⟨h2, h3⟩
    simp only [loadAux, hs]
  · intro sources h
    unfold load_adware_description_files at h
    cases h0 : loadAux env sources (none, ∅) with
    | error e =>
      rw [h0] at h
      injection h with h
      subst h
      exact loadAux_exit13_source env sources _ h0
    | ok st =>
      rw [h0] at h
      rcases st with ⟨a, b⟩
      exact absurd h (by simp)

/-- Witness for C7: two sources, cache unwritable — the run aborts with
exit code 13 at the first source, never touching the second. -/
theorem C7_witness :
    load_adware_description_files envC7 ["u", "v"] = .error .exit13 :=
  (C7_fatal_permission_exit envC7).2.1 [] "u" ["v"] (none, ∅) rfl rfl rfl

/-! ## C4 / C10 — quarantine -/

/-- A destination path inside the backup directory starts with
`dir ++ "/"`. -/
theorem isPre_dest (dir t : Path) :
    isPre (dir ++ ['/']) (dir ++ '/' :: t) = true := by
  have h : dir ++ '/' :: t = (dir ++ ['/']) ++ t := by simp
  rw [h]
  exact isPre_append _ _

/-- Characterization of `quarantine`'s loop on a fresh backup directory:
with pairwise-distinct base names, sources that exist, lie outside the
backup directory and are not ancestors of it, no pre-existing
destinations, and every per-entry relocation either succeeding or failing
with an `OSError`, no exception escapes, each entry's outcome is decided
by its relocation fate, and the final filesystem replaces each
successfully moved source by its destination. -/
theorem quarantineAux_spec (fate : Path → MoveFate) (dir : Path) :
    ∀ (items : List Path) (fs : Finset Path),
      items.Nodup →
      (items.map basename).Nodup →
      (∀ f ∈ items, f ∈ fs) →
      (∀ f ∈ items, isPre (dir ++ ['/']) f = false) →
      (∀ f ∈ items, (dir ++ '/' :: basename f) ∉ fs) →
      (∀ f ∈ items, f ≠ dir ∧ isPre (f ++ ['/']) dir = false) →
      (∀ f ∈ items, fate f = .moved ∨ fate f = .osError) →
      (quarantineAux fate dir items fs).2.2 = none ∧
      (quarantineAux fate dir items fs).2.1 = items.map
        (fun f => (f, if fate f = .moved then Outcome.quarantined
                      else Outcome.quarantineFailed)) ∧
      (∀ p : Path, p ∈ (quarantineAux fate dir items fs).1 ↔
        ((p ∈ fs ∧ ∀ f ∈ items, fate f = .moved → p ≠ f) ∨
         (∃ f, f ∈ items ∧ fate f = .moved ∧ p = dir ++ '/' :: basename f))) := by
  intro items
  induction items with
  | nil =>
    intro fs _ _ _ _ _ _ _
    refine ⟨rfl, rfl, fun p => ?_⟩
    simp [quarantineAux]
  | cons i rest ih =>
    intro fs hnd hbn hex hpre hdest hanc hfate
    have hifs : i ∈ fs := hex i (List.mem_cons_self ..)
    have hdi : (dir ++ '/' :: basename i) ∉ fs := hdest i (List.mem_cons_self ..)
    have hirest : i ∉ rest := (List.nodup_cons.mp hnd).1
    have hbni : basename i ∉ rest.map basename := by
      have := hbn
      rw [List.map_cons, List.nodup_cons] at this
      exact this.1
    have hanci := hanc i (List.mem_cons_self ..)
    have hnanc : ¬(i = dir ∨ isPre (i ++ ['/']) dir = true) := by
      rintro (h | h)
      · exact hanci.1 h
      · rw [hanci.2] at h
        exact Bool.false_ne_true h
    have hmv : shutil_move fate fs i dir =
        (match fate i with
         | .moved => .ok (insert (dir ++ '/' :: basename i) (fs.erase i))
         | .osError => .error .osError
         | .ioError => .error .ioError
         | .shutilError => .error .shutilError) := by
      simp only [shutil_move]
      rw [if_neg hdi, if_neg (not_not_intro hifs), if_neg hnanc]
    rcases hfate i (List.mem_cons_self ..) with hmi | hoi
    · -- fate i = .moved
      have hmv' : shutil_move fate fs i dir =
          .ok (insert (dir ++ '/' :: basename i) (fs.erase i)) := by
        rw [hmv, hmi]
      set fs' : Finset Path := insert (dir ++ '/' :: basename i) (fs.erase i) with hfs'
      have heq : quarantineAux fate dir (i :: rest) fs =
          ((quarantineAux fate dir rest fs').1,
           (i, Outcome.quarantined) :: (quarantineAux fate dir rest fs').2.1,
           (quarantineAux fate dir rest fs').2.2) := by
        simp [quarantineAux, hmv']
      -- preconditions of the inductive hypothesis on fs'
      have hex' : ∀ f ∈ rest, f ∈ fs' := by
        intro f hf
        have hfne : f ≠ i := fun h => hirest (h ▸ hf)
        exact Finset.mem_insert_of_mem
          (Finset.mem_erase.mpr ⟨hfne, hex f (List.mem_cons_of_mem _ hf)⟩)
      have hpre' : ∀ f ∈ rest, isPre (dir ++ ['/']) f = false :=
        fun f hf => hpre f (List.mem_cons_of_mem _ hf)
      have hdest' : ∀ f ∈ rest, (dir ++ '/' :: basename f) ∉ fs' := by
        intro f hf hmem
        rcases Finset.mem_insert.mp hmem with hdd | hdd
        · exact hbni (dest_inj dir hdd ▸ List.mem_map_of_mem basename hf)
        · exact hdest f (List.mem_cons_of_mem _ hf) (Finset.mem_of_mem_erase hdd)
      obtain ⟨ih1, ih2, ih3⟩ := ih fs' (List.nodup_cons.mp hnd).2
        (by rw [List.map_cons, List.nodup_cons] at hbn; exact hbn.2)
        hex' hpre' hdest'
        (fun f hf => hanc f (List.mem_cons_of_mem _ hf))
        (fun f hf => hfate f (List.mem_cons_of_mem _ hf))
      refine ⟨by rw [heq]; exact ih1, by rw [heq]; simp [ih2, hmi], fun p => ?_⟩
      rw [heq]
      simp only []
      rw [ih3 p]
      constructor
      · rintro (⟨hp', hq⟩ | ⟨f, hf, hokf, rfl⟩)
        · rcases Finset.mem_insert.mp hp' with rfl | hp2
          · exact Or.inr ⟨i, List.mem_cons_self .., hmi, rfl⟩
          · obtain ⟨hpne, hpfs⟩ := Finset.mem_erase.mp hp2
            refine Or.inl ⟨hpfs, fun f hf hokf => ?_⟩
            rcases List.mem_cons.mp hf with rfl | hfr
            · exact hpne
            · exact hq f hfr hokf
        · exact Or.inr ⟨f, List.mem_cons_of_mem _ hf, hokf, rfl⟩
      · rintro (⟨hpfs, hq⟩ | ⟨f, hf, hokf, rfl⟩)
        · have hpi : p ≠ i := hq i (List.mem_cons_self ..) hmi
          exact Or.inl ⟨Finset.mem_insert_of_mem (Finset.mem_erase.mpr ⟨hpi, hpfs⟩),
            fun f hf => hq f (List.mem_cons_of_mem _ hf)⟩
        · rcases List.mem_cons.mp hf with rfl | hfr
          · refine Or.inl ⟨Finset.mem_insert_self .., fun f' hf' hokf' hcontra => ?_⟩
            have h1 : isPre (dir ++ ['/']) f' = false :=
              hpre' f' hf'
            rw [← hcontra, isPre_dest] at h1
            exact Bool.true_eq_false ▸ h1
          · exact Or.inr ⟨f, hfr, hokf, rfl⟩
    · -- fate i = .osError
      have hmv' : shutil_move fate fs i dir = .error .osError := by
        rw [hmv, hoi]
      have heq : quarantineAux fate dir (i :: rest) fs =
          ((quarantineAux fate dir rest fs).1,
           (i, Outcome.quarantineFailed) :: (quarantineAux fate dir rest fs).2.1,
           (quarantineAux fate dir rest fs).2.2) := by
        simp [quarantineAux, hmv']
      obtain ⟨ih1, ih2, ih3⟩ := ih fs (List.nodup_cons.mp hnd).2
        (by rw [List.map_cons, List.nodup_cons] at hbn; exact hbn.2)
        (fun f hf => hex f (List.mem_cons_of_mem _ hf))
        (fun f hf => hpre f (List.mem_cons_of_mem _ hf))
        (fun f hf => hdest f (List.mem_cons_of_mem _ hf))
        (fun f hf => hanc f (List.mem_cons_of_mem _ hf))
        (fun f hf => hfate f (List.mem_cons_of_mem _ hf))
      refine ⟨by rw [heq]; exact ih1, by rw [heq]; simp [ih2, hoi], fun p => ?_⟩
      rw [heq]
      simp only []
      rw [ih3 p]
      constructor
      · rintro (⟨hpfs, hq⟩ | ⟨f, hf, hokf, rfl⟩)
        · refine Or.inl ⟨hpfs, fun f hf hokf => ?_⟩
          rcases List.mem_cons.mp hf with rfl | hfr
          · rw [hoi] at hokf
            exact absurd hokf (by simp)
          · exact hq f hfr hokf
        · exact Or.inr ⟨f, List.mem_cons_of_mem _ hf, hokf, rfl⟩
      · rintro (⟨hpfs, hq⟩ | ⟨f, hf, hokf, rfl⟩)
        · exact Or.inl ⟨hpfs, fun f hf => hq f (List.mem_cons_of_mem _ hf)⟩
        · rcases List.mem_cons.mp hf with rfl | hfr
          · rw [hoi] at hokf
            exact absurd hokf (by simp)
          · exact Or.inr ⟨f, hfr, hokf, rfl⟩

/-- C10: calling `quarantine` on a non-empty set while the
second-resolution timestamped directory already exists under the cache
root: the uncaught `os.mkdir` `OSError` aborts the call before any file
is moved — the filesystem is unchanged and no entry receives a
per-entry outcome. -/
theorem C10_mkdir_collision (env : QEnv) (fs : Finset Path) (files : List Path)
    (hne : files ≠ []) (hex : backupDir env ∈ fs) :
    quarantine env fs files = ⟨fs, [], none, some .mkdirError⟩ := by
  cases files with
  | nil => exact absurd rfl hne
  | cons a l => simp [quarantine, hex]

/-- Witness for C10 at a concrete clock and filesystem. -/
theorem C10_witness :
    quarantine envQ4 fsC10 [pax] = ⟨fsC10, [], none, some .mkdirError⟩ :=
  C10_mkdir_collision envQ4 fsC10 [pax] (List.cons_ne_nil _ _)
    (Finset.mem_singleton_self _)

/-- C4 counterexample: two existing entries `/a/x` and `/b/x` with the
same base name, every OS-level rename succeeding — the first is
quarantined, then `shutil.move` raises `shutil.Error` (not an `OSError`,
so uncaught) on the second: the batch aborts and the second entry gets
no outcome at all, contradicting "every input entry either ends up under
that directory or is classified quarantine-failed, with the batch
continuing past each per-entry failure". -/
theorem C4_counterexample :
    RC4.err = some MvErr.shutilError ∧
    RC4.outcomes = [(pax, Outcome.quarantined)] ∧
    (pbx, Outcome.quarantined) ∉ RC4.outcomes ∧
    (pbx, Outcome.quarantineFailed) ∉ RC4.outcomes :=
  ⟨by decide, by decide, by decide, by decide⟩

/-- C4 (amended): on a non-empty input whose timestamped directory does
not already exist, whose entries exist, lie outside the backup directory
and are not path-ancestors of it, and have pairwise-distinct base names,
and whose per-entry relocations each either succeed or raise an
`OSError` (excluding the `copy2`/`copytree` fallback's uncaught
`IOError`/`shutil.Error`), `quarantine` creates exactly one directory
under the cache root named by the local timestamp formatted
`YYYYMMDD-HHMMSS`; no exception escapes, every entry's outcome is
`quarantined` (when its relocation succeeds — it then sits under the
backup directory keeping its base name and its original location is
absent) or `quarantine-failed` (on `OSError`), and the batch continues
past each per-entry failure.  (Entries sharing a base name, an entry
that is an ancestor of the backup directory, and uncaught fallback
errors all break this: see the counterexample for the first.) -/
theorem C4_quarantine_batch (env : QEnv) (fs : Finset Path) (files : List Path)
    (hne : files ≠ []) (hnd : files.Nodup) (hbn : (files.map basename).Nodup)
    (hex : ∀ f ∈ files, f ∈ fs)
    (hpre : ∀ p ∈ fs, isPre (backupDir env ++ ['/']) p = false)
    (hdir : backupDir env ∉ fs)
    (hanc : ∀ f ∈ files, f ≠ backupDir env ∧
      isPre (f ++ ['/']) (backupDir env) = false)
    (hfate : ∀ f ∈ files, env.fate f = .moved ∨ env.fate f = .osError) :
    (quarantine env fs files).created = some (backupDir env) ∧
    backupDir env = CACHE ++ '/' :: strf env.t ∧
    (quarantine env fs files).err = none ∧
    (quarantine env fs files).outcomes = files.map
      (fun f => (f, if env.fate f = .moved then Outcome.quarantined
                    else Outcome.quarantineFailed)) ∧
    (∀ f ∈ files, env.fate f = .moved →
      (backupDir env ++ '/' :: basename f) ∈ (quarantine env fs files).fs ∧
      f ∉ (quarantine env fs files).fs) := by
  cases files with
  | nil => exact absurd rfl hne
  | cons a l =>
    have hq : quarantine env fs (a :: l) =
        ⟨(quarantineAux env.fate (backupDir env) (a :: l)
            (insert (backupDir env) fs)).1,
         (quarantineAux env.fate (backupDir env) (a :: l)
            (insert (backupDir env) fs)).2.1,
         some (backupDir env),
         (quarantineAux env.fate (backupDir env) (a :: l)
            (insert (backupDir env) fs)).2.2⟩ := by
      simp [quarantine, hdir]
    have hex1 : ∀ f ∈ (a :: l), f ∈ insert (backupDir env) fs :=
      fun f hf => Finset.mem_insert_of_mem (hex f hf)
    have hpre1 : ∀ f ∈ (a :: l), isPre (backupDir env ++ ['/']) f = false :=
      fun f hf => hpre f (hex f hf)
    have hdest1 : ∀ f ∈ (a :: l),
        (backupDir env ++ '/' :: basename f) ∉ insert (backupDir env) fs := by
      intro f hf hmem
      rcases Finset.mem_insert.mp hmem with hdd | hdd
      · exact ne_append_cons (backupDir env) '/' (basename f) hdd.symm
      · have h1 := hpre _ hdd
        rw [isPre_dest] at h1
        exact Bool.true_eq_false ▸ h1
    obtain ⟨s1, s2, s3⟩ := quarantineAux_spec env.fate (backupDir env)
      (a :: l) (insert (backupDir env) fs) hnd hbn hex1 hpre1 hdest1 hanc hfate
    refine ⟨by rw [hq], rfl, by rw [hq]; exact s1, by rw [hq]; exact s2,
      fun f hf hok => ⟨?_, ?_⟩⟩
    · rw [hq]
      exact (s3 _).mpr (Or.inr ⟨f, hf, hok, rfl⟩)
    · rw [hq]
      intro hmem
      rcases (s3 f).mp hmem with ⟨_, hq'⟩ | ⟨f', hf', _, heq⟩
      · exact hq' f hf hok rfl
      · have h1 : isPre (backupDir env ++ ['/']) f = false := hpre f (hex f hf)
        rw [heq, isPre_dest] at h1
        exact Bool.true_eq_false ▸ h1

/-- Witness for C4 (amended): two existing entries with distinct base
names, neither an ancestor of the backup directory, all relocations
succeeding — no exception escapes and exactly the timestamped directory
is created. -/
theorem C4_witness :
    (quarantine envQ4 fsC4w [pax, pby]).err = none ∧
    (quarantine envQ4 fsC4w [pax, pby]).created = some (backupDir envQ4) := by
  have h := C4_quarantine_batch envQ4 fsC4w [pax, pby] (List.cons_ne_nil _ _)
    (by decide) (by decide) (by decide) (by decide) (by decide) (by decide)
    (by decide)
  exact ⟨h.2.2.1, h.1⟩

end SavingThrow
